import Mathlib

/-!
Shallow embedding of the `unicode-title-case` crate.

Codepoints are modelled as `Nat` (`'\0'` is `0`).  The runtime title-case
table generated by `build.rs` and embedded as `TITLECASE_TABLE` is modelled
as a parameter `t : Table`, a list of `(codepoint, [codepoint; 3])` pairs;
the invariants the crate establishes for it (strictly sorted keys, no
self-mapping in slot 0) appear as explicit hypotheses where a claim needs
them.  Standard-library case primitives (`char::to_lowercase`,
`char::is_lowercase`) are external to the crate and enter as function
parameters.
-/

/-- `[char; 3]` mapping value stored in the table (slots 0, 1, 2). -/
abbrev Mapping := Nat × Nat × Nat

/-- The embedded `TITLECASE_TABLE : &[(char, [char; 3])]`. -/
abbrev Table := List (Nat × Mapping)

/-- Key of the table entry at index `i` (out-of-range reads a dummy entry;
all uses are guarded by bounds facts). -/
def keyAt (t : Table) (i : Nat) : Nat := (t.getD i (0, (0, 0, 0))).1

/-- Core of `slice::binary_search_by` as called in `to_titlecase`
(src/lib.rs line 50): classic two-pointer binary search on `[left, right)`
with `mid = left + size / 2`.  The structural `fuel` argument only bounds
the iteration count; `binarySearch` passes `t.length + 1`, which always
suffices because `right - left` strictly decreases at every step. -/
def binSearchGo (t : Table) (c : Nat) : Nat → Nat → Nat → Option Nat
  | 0, _, _ => none
  | fuel + 1, left, right =>
    if left < right then
      if keyAt t (left + (right - left) / 2) < c then
        binSearchGo t c fuel (left + (right - left) / 2 + 1) right
      else if c < keyAt t (left + (right - left) / 2) then
        binSearchGo t c fuel left (left + (right - left) / 2)
      else some (left + (right - left) / 2)
    else none

/-- `TITLECASE_TABLE.binary_search_by(|&(key, _)| key.cmp(&c))`:
`some i` models `Ok(i)` (hit at index `i`), `none` models `Err(_)` (miss). -/
def binarySearch (t : Table) (c : Nat) : Option Nat :=
  binSearchGo t c (t.length + 1) 0 t.length

/-- `to_titlecase` (src/lib.rs lines 49-55): on a hit return the stored
mapping `TITLECASE_TABLE[index].1`, on a miss return `[c, '\0', '\0']`. -/
def to_titlecase (t : Table) (c : Nat) : Mapping :=
  match binarySearch t c with
  | some index => (t.getD index (0, (0, 0, 0))).2
  | none => (c, 0, 0)

/-- `to_titlecase_tr_or_az` (src/lib.rs lines 85-91): `'i'` (U+0069) maps to
`['İ' (U+0130), '\0', '\0']`, everything else falls through to
`to_titlecase`. -/
def to_titlecase_tr_or_az (t : Table) (c : Nat) : Mapping :=
  if c = 0x69 then (0x130, 0, 0) else to_titlecase t c

/-- `char::is_titlecase` (src/lib.rs lines 178-182): true iff the binary
search misses (`is_err`). -/
def is_titlecase (t : Table) (c : Nat) : Bool :=
  (binarySearch t c).isNone

/-- `enum CaseMappingIter` (src/lib.rs lines 608-614). -/
inductive CaseMappingIter where
  | Three (a b c : Nat)
  | Two (b c : Nat)
  | One (c : Nat)
  | Zero
deriving DecidableEq, Repr

/-- `CaseMappingIter::new` (src/lib.rs lines 616-628): trailing `'\0'`
slots select the smaller variant; `chars[0]` is kept even when it is
`'\0'` (the source comments this explicitly). -/
def CaseMappingIter.new (chars : Mapping) : CaseMappingIter :=
  if chars.2.2 = 0 then
    if chars.2.1 = 0 then
      CaseMappingIter.One chars.1
    else
      CaseMappingIter.Two chars.1 chars.2.1
  else
    CaseMappingIter.Three chars.1 chars.2.1 chars.2.2

/-- `Iterator::next` for `CaseMappingIter` (src/lib.rs lines 632-648),
with the mutation made explicit: result paired with the successor state. -/
def CaseMappingIter.next : CaseMappingIter → Option Nat × CaseMappingIter
  | .Three a b c => (some a, .Two b c)
  | .Two b c => (some b, .One c)
  | .One c => (some c, .Zero)
  | .Zero => (none, .Zero)

/-- `DoubleEndedIterator::next_back` (src/lib.rs lines 661-679). -/
def CaseMappingIter.nextBack : CaseMappingIter → Option Nat × CaseMappingIter
  | .Three a b c => (some c, .Two a b)
  | .Two b c => (some c, .One b)
  | .One c => (some c, .Zero)
  | .Zero => (none, .Zero)

/-- Remaining-element count, as computed inside `size_hint`
(src/lib.rs lines 650-658). -/
def CaseMappingIter.size : CaseMappingIter → Nat
  | .Three _ _ _ => 3
  | .Two _ _ => 2
  | .One _ => 1
  | .Zero => 0

/-- `Iterator::size_hint` (src/lib.rs lines 650-658): `(size, Some(size))`. -/
def sizeHint (it : CaseMappingIter) : Nat × Option Nat :=
  (it.size, some it.size)

/-- Drain at most `fuel` elements from the front via `next`. -/
def drainFrontAux : Nat → CaseMappingIter → List Nat
  | 0, _ => []
  | fuel + 1, it =>
    match CaseMappingIter.next it with
    | (some c, it2) => c :: drainFrontAux fuel it2
    | (none, _) => []

/-- The full sequence an iterator state yields under forward consumption
(`size` is an exact fuel bound: `next` shrinks `size` by one per element). -/
def drainFront (it : CaseMappingIter) : List Nat :=
  drainFrontAux it.size it

/-- Drain at most `fuel` elements from the back via `next_back`. -/
def drainBackAux : Nat → CaseMappingIter → List Nat
  | 0, _ => []
  | fuel + 1, it =>
    match CaseMappingIter.nextBack it with
    | (some c, it2) => c :: drainBackAux fuel it2
    | (none, _) => []

/-- The full sequence an iterator state yields under backward consumption. -/
def drainBack (it : CaseMappingIter) : List Nat :=
  drainBackAux it.size it

/-- Number of non-`'\0'`-sentinel slots of a `[char; 3]` source array. -/
def nonNulCount (a : Mapping) : Nat :=
  (if a.1 = 0 then 0 else 1) + (if a.2.1 = 0 then 0 else 1) +
    (if a.2.2 = 0 then 0 else 1)

/-- `tr_az::to_lowercase_tr_or_az` (src/lib.rs lines 395-401).  The external
`char::to_lowercase` is the parameter `low` (a char yields a sequence of
chars); the trailing `.next().unwrap()` is modelled by `head?`, so `none`
models the panic of an `unwrap` on an empty lowercase expansion. -/
def to_lowercase_tr_or_az (low : Nat → List Nat) (c : Nat) : Option Nat :=
  if c = 0x49 then some 0x131
  else if c = 0x130 then some 0x69
  else (low c).head?

/-- The char sequence `'c'.to_titlecase()` yields (src/lib.rs lines 170-172):
the `CaseMappingIter` built from the default mapping array, drained. -/
def title_expansion (t : Table) (c : Nat) : List Nat :=
  drainFront (CaseMappingIter.new (to_titlecase t c))

/-- The char sequence `'c'.to_titlecase_tr_or_az()` yields
(src/lib.rs lines 174-176). -/
def title_expansion_tr_or_az (t : Table) (c : Nat) : List Nat :=
  drainFront (CaseMappingIter.new (to_titlecase_tr_or_az t c))

/-- `str::to_titlecase` (src/lib.rs lines 300-307): strings are lists of
chars; `iter.next()` is `head?`, the leftover `iter` chained after the
first char's expansion is `tail`. -/
def str_to_titlecase (t : Table) (s : List Nat) : List Nat :=
  (s.head?.elim [] (title_expansion t)) ++ s.tail

/-- `str::to_titlecase_lower_rest` (src/lib.rs lines 309-316); the rest of
the string goes through the external `char::to_lowercase` parameter `low`. -/
def str_to_titlecase_lower_rest (t : Table) (low : Nat → List Nat)
    (s : List Nat) : List Nat :=
  (s.head?.elim [] (title_expansion t)) ++ s.tail.flatMap low

/-- `str::to_titlecase_tr_or_az` (src/lib.rs lines 318-325). -/
def str_to_titlecase_tr_or_az (t : Table) (s : List Nat) : List Nat :=
  (s.head?.elim [] (title_expansion_tr_or_az t)) ++ s.tail

/-- `str::to_titlecase_tr_or_az_lower_rest` (src/lib.rs lines 327-334):
the rest is mapped through `to_lowercase_tr_or_az`, whose modelled panic
propagates, so the result is an `Option`. -/
def str_to_titlecase_tr_or_az_lower_rest (t : Table) (low : Nat → List Nat)
    (s : List Nat) : Option (List Nat) :=
  (s.tail.mapM (to_lowercase_tr_or_az low)).map
    (fun rest => (s.head?.elim [] (title_expansion_tr_or_az t)) ++ rest)

/-- `str::starts_titlecase` (src/lib.rs lines 336-341):
`chars().next().map_or(false, is_titlecase)`. -/
def starts_titlecase (t : Table) (s : List Nat) : Bool :=
  s.head?.elim false (is_titlecase t)

/-- `str::starts_titlecase_rest_lower` (src/lib.rs lines 343-349); the
external `char::is_lowercase` is the parameter `lower?`. -/
def starts_titlecase_rest_lower (t : Table) (lowerP : Nat → Bool)
    (s : List Nat) : Bool :=
  (s.head?.elim false (is_titlecase t)) && s.tail.all lowerP

/-! ## build.rs: the offline table builder

`build.rs` accumulates records in a `BTreeMap<char, [&str; 3]>`; mapping
values at build time are the raw hex-string fields.  The map is modelled as
a key-sorted association list. -/

/-- `[&str; 3]` value held in the builder map. -/
abbrev SMapping := String × String × String

/-- The builder's `BTreeMap<char, [&str; 3]>` (keys kept sorted). -/
abbrev BuildMap := List (Nat × SMapping)

/-- Lookup in the builder map. -/
def mapLookup : BuildMap → Nat → Option SMapping
  | [], _ => none
  | (k, v) :: rest, cp => if k = cp then some v else mapLookup rest cp

/-- Order-preserving `BTreeMap::insert` (replaces the value when the key
is present, otherwise inserts at the sorted position). -/
def mapInsert : BuildMap → Nat → SMapping → BuildMap
  | [], cp, m => [(cp, m)]
  | (k, v) :: rest, cp, m =>
    if cp < k then (cp, m) :: (k, v) :: rest
    else if cp = k then (cp, m) :: rest
    else (k, v) :: mapInsert rest cp m

/-- `data.insert(cp, m)` followed by the `assert_eq!` of all three slots
against the previous value (build.rs lines 31-35 and 44-48): `none` models
the panic when an existing mapping differs in any slot. -/
def insertChecked (data : BuildMap) (cp : Nat) (m : SMapping) :
    Option BuildMap :=
  let old := mapLookup data cp
  let data2 := mapInsert data cp m
  match old with
  | some o => if o = m then some data2 else none
  | none => some data2

/-- Value of one ASCII hex digit. -/
def hexDigit (ch : Char) : Option Nat :=
  if 48 ≤ ch.toNat ∧ ch.toNat ≤ 57 then some (ch.toNat - 48)
  else if 65 ≤ ch.toNat ∧ ch.toNat ≤ 70 then some (ch.toNat - 55)
  else if 97 ≤ ch.toNat ∧ ch.toNat ≤ 102 then some (ch.toNat - 87)
  else none

/-- `u32::from_str_radix(s, 16)`: `none` models the `Err` (whose `unwrap`
panics in build.rs). -/
def hexToNat (s : String) : Option Nat :=
  if s = "" then none
  else
    s.data.foldl
      (fun acc ch => acc.bind (fun n => (hexDigit ch).map (fun d => 16 * n + d)))
      (some 0)

/-- `char::from_u32` success condition (Unicode scalar values). -/
def validScalar (n : Nat) : Bool :=
  n < 0xD800 || (0xE000 ≤ n && n < 0x110000)

/-- Split a character list at every separator satisfying `p`, keeping empty
pieces (the semantics of Rust `str::split`). -/
def splitOnP (p : Char → Bool) : List Char → List (List Char)
  | [] => [[]]
  | ch :: rest =>
    let r := splitOnP p rest
    if p ch then [] :: r else (ch :: r.headD []) :: r.tail

/-- Rust `line.split(';')` on a string, as a list of strings. -/
def splitSemi (line : String) : List String :=
  (splitOnP (fun ch => ch == ';') line.data).map List.asString

/-- Rust `str::split_ascii_whitespace`: split at ASCII whitespace and drop
the empty pieces. -/
def splitAsciiWS (s : String) : List String :=
  ((splitOnP (fun ch => ch == ' ' || ch == '\t' || ch == '\n' || ch == '\r')
      s.data).map List.asString).filter (· ≠ "")

/-- The `SpecialCasing.txt` per-line body of build.rs lines 22-37, for one
line that survived the `#`-comment/blank filter.  `split(';').take(3)
.step_by(2)` keeps fields 0 (codepoint) and 2 (titlecase); the titlecase
field is split on ASCII whitespace; the record is skipped only when the
field is empty or its first codepoint string equals the source codepoint
string.  `none` models a build panic (`unwrap` failure or `assert_eq!`). -/
def scStep (data : BuildMap) (line : String) : Option BuildMap :=
  let fields := splitSemi line
  match fields.get? 0, fields.get? 2 with
  | some code_point, some tcs =>
    let tccp := splitAsciiWS tcs
    match tccp.get? 0 with
    | some tccp0 =>
      if code_point ≠ tccp0 then
        match hexToNat code_point with
        | some n =>
          if validScalar n then
            insertChecked data n
              (tccp0, (tccp.get? 1).getD "0", (tccp.get? 2).getD "0")
          else none
        | none => none
      else some data
    | none => some data
  | _, _ => none

/-! ## Table invariants (spec section 3; checked by the tests in
src/lib.rs lines 703-717) -/

/-- Keys strictly ascending: the `is_sorted` test invariant. -/
def tableSorted (t : Table) : Prop :=
  List.Pairwise (fun a b => a.1 < b.1) t

/-- No entry maps to itself in slot 0: the `self_mapping` test invariant. -/
def noSelfMap (t : Table) : Prop :=
  ∀ p ∈ t, p.2.1 ≠ p.1

instance (t : Table) : Decidable (tableSorted t) := by
  unfold tableSorted; infer_instance

instance (t : Table) : Decidable (noSelfMap t) := by
  unfold noSelfMap; infer_instance

/-! ## Helper lemmas -/

theorem keyAt_eq_getElem (t : Table) (i : Nat) (hi : i < t.length) :
    keyAt t i = (t[i]).1 := by
  unfold keyAt
  rw [List.getD_eq_getElem t (0, (0, 0, 0)) hi]

theorem keyAt_lt_of_sorted (t : Table) (hs : tableSorted t) :
    ∀ i j, i < j → j < t.length → keyAt t i < keyAt t j := by
  intro i j hij hj
  have hi : i < t.length := Nat.lt_trans hij hj
  rw [keyAt_eq_getElem t i hi, keyAt_eq_getElem t j hj]
  exact List.pairwise_iff_getElem.mp hs i j hi hj hij

theorem binSearchGo_some (t : Table) (c : Nat) :
    ∀ fuel left right i, binSearchGo t c fuel left right = some i →
      left ≤ i ∧ i < right ∧ keyAt t i = c := by
  intro fuel
  induction fuel with
  | zero => intro l r i h; simp [binSearchGo] at h
  | succ n ih =>
    intro l r i h
    by_cases hlr : l < r
    · simp only [binSearchGo, if_pos hlr] at h
      set m := l + (r - l) / 2 with hm
      by_cases h1 : keyAt t m < c
      · rw [if_pos h1] at h
        obtain ⟨a1, a2, a3⟩ := ih _ _ _ h
        exact ⟨by omega, a2, a3⟩
      · rw [if_neg h1] at h
        by_cases h2 : c < keyAt t m
        · rw [if_pos h2] at h
          obtain ⟨a1, a2, a3⟩ := ih _ _ _ h
          exact ⟨a1, by omega, a3⟩
        · rw [if_neg h2] at h
          obtain rfl := Option.some.inj h
          exact ⟨by omega, by omega, by omega⟩
    · simp [binSearchGo, if_neg hlr] at h

theorem binSearchGo_none (t : Table) (c : Nat)
    (hmono : ∀ i j, i < j → j < t.length → keyAt t i < keyAt t j) :
    ∀ fuel left right, right ≤ t.length → right - left < fuel →
      binSearchGo t c fuel left right = none →
      ∀ i, left ≤ i → i < right → keyAt t i ≠ c := by
  intro fuel
  induction fuel with
  | zero => intro l r _ hf _ i _ _; omega
  | succ n ih =>
    intro l r hr hf hnone i hli hir
    by_cases hlr : l < r
    · simp only [binSearchGo, if_pos hlr] at hnone
      set m := l + (r - l) / 2 with hm
      have hmr : m < r := by omega
      by_cases h1 : keyAt t m < c
      · rw [if_pos h1] at hnone
        by_cases him : m + 1 ≤ i
        · exact ih _ _ hr (by omega) hnone i him hir
        · have hle : keyAt t i ≤ keyAt t m := by
            rcases Nat.lt_or_ge i m with hlt | hge
            · exact Nat.le_of_lt (hmono i m hlt (by omega))
            · have : i = m := by omega
              simp [this]
          omega
      · rw [if_neg h1] at hnone
        by_cases h2 : c < keyAt t m
        · rw [if_pos h2] at hnone
          by_cases him : i < m
          · exact ih _ _ (by omega) (by omega) hnone i hli him
          · have hle : keyAt t m ≤ keyAt t i := by
              rcases Nat.lt_or_ge m i with hlt | hge
              · exact Nat.le_of_lt (hmono m i hlt (by omega))
              · have : m = i := by omega
                simp [this]
            omega
        · rw [if_neg h2] at hnone
          simp at hnone
    · omega

theorem binarySearch_some (t : Table) (c : Nat) (i : Nat)
    (h : binarySearch t c = some i) : i < t.length ∧ keyAt t i = c := by
  obtain ⟨_, h2, h3⟩ := binSearchGo_some t c _ _ _ _ h
  exact ⟨h2, h3⟩

theorem binarySearch_none (t : Table) (c : Nat) (hs : tableSorted t)
    (h : binarySearch t c = none) :
    ∀ i, i < t.length → keyAt t i ≠ c := by
  intro i hi
  exact binSearchGo_none t c (keyAt_lt_of_sorted t hs) _ 0 t.length
    (Nat.le_refl _) (by omega) h i (Nat.zero_le _) hi

theorem binarySearch_isSome_of_mem (t : Table) (c : Nat) (hs : tableSorted t)
    (i : Nat) (hi : i < t.length) (hk : keyAt t i = c) :
    ∃ j, binarySearch t c = some j := by
  cases hb : binarySearch t c with
  | none => exact absurd hk (binarySearch_none t c hs hb i hi)
  | some j => exact ⟨j, rfl⟩

theorem sorted_key_index_unique (t : Table) (hs : tableSorted t)
    (i j : Nat) (hi : i < t.length) (hj : j < t.length)
    (h : keyAt t i = keyAt t j) : i = j := by
  rcases Nat.lt_trichotomy i j with hlt | heq | hgt
  · exact absurd h (Nat.ne_of_lt (keyAt_lt_of_sorted t hs i j hlt hj))
  · exact heq
  · exact absurd h.symm (Nat.ne_of_lt (keyAt_lt_of_sorted t hs j i hgt hi))

theorem valAt_eq_getElem (t : Table) (i : Nat) (hi : i < t.length) :
    (t.getD i (0, (0, 0, 0))).2 = (t[i]).2 := by
  rw [List.getD_eq_getElem t (0, (0, 0, 0)) hi]

theorem mapLookup_mem :
    ∀ (l : BuildMap) (cp : Nat) (v : SMapping),
      mapLookup l cp = some v → (cp, v) ∈ l := by
  intro l
  induction l with
  | nil => intro cp v h; simp [mapLookup] at h
  | cons p rest ih =>
    intro cp v h
    obtain ⟨k, w⟩ := p
    by_cases hk : k = cp
    · subst hk
      simp [mapLookup] at h
      subst h
      exact List.mem_cons_self _ _
    · simp [mapLookup, hk] at h
      exact List.mem_cons_of_mem _ (ih _ _ h)

theorem mapInsert_self (data : BuildMap) (cp : Nat) (m : SMapping)
    (hs : List.Pairwise (fun a b => a.1 < b.1) data)
    (h : mapLookup data cp = some m) : mapInsert data cp m = data := by
  induction data with
  | nil => simp [mapLookup] at h
  | cons p rest ih =>
    obtain ⟨k, v⟩ := p
    obtain ⟨hhead, htail⟩ := List.pairwise_cons.mp hs
    by_cases hk : k = cp
    · subst hk
      simp [mapLookup] at h
      subst h
      simp [mapInsert]
    · simp [mapLookup, hk] at h
      have hmem : (cp, m) ∈ rest := mapLookup_mem rest cp m h
      have hlt : k < cp := hhead (cp, m) hmem
      have h1 : ¬ cp < k := by omega
      have h2 : ¬ cp = k := by omega
      simp [mapInsert, h1, h2, ih htail h]

theorem new_size_bounds (a : Mapping) :
    CaseMappingIter.new a ≠ CaseMappingIter.Zero ∧
    1 ≤ (CaseMappingIter.new a).size ∧ (CaseMappingIter.new a).size ≤ 3 := by
  by_cases h2 : a.2.2 = 0 <;> by_cases h1 : a.2.1 = 0 <;>
    simp [CaseMappingIter.new, h1, h2, CaseMappingIter.size]

theorem drainBack_eq_reverse_drainFront (it : CaseMappingIter) :
    drainBack it = (drainFront it).reverse := by
  cases it <;> rfl

theorem drainFront_length (it : CaseMappingIter) :
    (drainFront it).length = it.size := by
  cases it <;> rfl

/-- Two real entries of the generated table, used to instantiate the
hypothesis-bearing theorems: `Ǆ` (U+01C4) maps to `ǅ` (U+01C5) and the
ligature `ﬄ` (U+FB04) maps to `Ffl`. -/
def sampleTable : Table := [(0x1C4, (0x1C5, 0, 0)), (0xFB04, (0x46, 0x66, 0x6C))]

/-! ## Claims -/

/-- C1: the claim says records of SpecialCasing.txt carrying a conditional
qualifier are excluded from the default table.  The builder in build.rs
never inspects the condition field (`split(';').take(3).step_by(2)` keeps
only fields 0 and 2), so the real conditional record
`0069; 0069; 0130; 0130; tr;` — whose titlecase field `0130` differs from
its codepoint field — IS inserted into the map: the default table would
map `i` to `İ`, contradicting both lib.rs's own doctest
`to_titlecase('i') == ['I','\0','\0']` and the `assert_eq!` fired when the
UnicodeData.txt pass later inserts `0049` for the same key. -/
theorem c1_conditional_record_inserted :
    scStep [] "0069; 0069; 0130; 0130; tr; # LATIN SMALL LETTER I" =
      some [(0x69, ("0130", "0", "0"))] ∧
    mapLookup [(0x69, ("0130", "0", "0"))] 0x69 = some ("0130", "0", "0") := by
  decide

/-- C2: `is_titlecase(c)` is true iff the binary search for `c` misses,
and (given the no-self-mapping table invariant) it equals
`to_titlecase(c)[0] == c`. -/
theorem c2_is_titlecase_spec (t : Table) (c : Nat) (hn : noSelfMap t) :
    is_titlecase t c = (binarySearch t c).isNone ∧
    (is_titlecase t c = true ↔ (to_titlecase t c).1 = c) := by
  refine ⟨rfl, ?_⟩
  cases hb : binarySearch t c with
  | none => simp [is_titlecase, hb, to_titlecase]
  | some i =>
    obtain ⟨hi, hk⟩ := binarySearch_some t c i hb
    have hne : (to_titlecase t c).1 ≠ c := by
      unfold to_titlecase
      rw [hb]
      show (t.getD i (0, (0, 0, 0))).2.1 ≠ c
      rw [valAt_eq_getElem t i hi]
      have hmem := List.getElem_mem (l := t) (n := i) hi
      have hself := hn _ hmem
      rw [keyAt_eq_getElem t i hi] at hk
      rw [hk] at hself
      exact hself
    simp [is_titlecase, hb, hne]

/-- C2 witness: the invariants and the equivalence hold at `sampleTable`
and `c = U+01C4`. -/
theorem c2_is_titlecase_spec_witness :
    is_titlecase sampleTable 0x1C4 = (binarySearch sampleTable 0x1C4).isNone ∧
    (is_titlecase sampleTable 0x1C4 = true ↔
      (to_titlecase sampleTable 0x1C4).1 = 0x1C4) :=
  c2_is_titlecase_spec sampleTable 0x1C4 (by decide)

/-- C3 counterexample: the claim quantifies over every 3-char source array,
but for `['\0','\0','\0']` the constructor yields `One('\0')` (the source
comments this case explicitly), whose length is 1 while the array has zero
non-sentinel slots, and which yields the NUL sentinel. -/
theorem c3_counterexample :
    ¬ ((drainFront (CaseMappingIter.new (0, 0, 0))).length =
          nonNulCount (0, 0, 0) ∧
       sizeHint (CaseMappingIter.new (0, 0, 0)) =
          (nonNulCount (0, 0, 0), some (nonNulCount (0, 0, 0))) ∧
       ∀ x ∈ drainFront (CaseMappingIter.new (0, 0, 0)), x ≠ 0) := by
  decide

/-- C3 (amended): for every 3-char source array whose NUL sentinels occur
only in trailing slots and whose first slot is not NUL (the shape of every
title-case mapping of a non-NUL character), the iterator's length and
exact `size_hint` equal the number of non-sentinel slots and no yielded
codepoint is the sentinel. -/
theorem c3_amended_sentinel_invariant (a : Mapping) (h1 : a.1 ≠ 0)
    (h2 : a.2.1 = 0 → a.2.2 = 0) :
    (drainFront (CaseMappingIter.new a)).length = nonNulCount a ∧
    sizeHint (CaseMappingIter.new a) = (nonNulCount a, some (nonNulCount a)) ∧
    ∀ x ∈ drainFront (CaseMappingIter.new a), x ≠ 0 := by
  obtain ⟨x, y, z⟩ := a
  simp only at h1 h2
  by_cases hy : y = 0
  · have hz := h2 hy
    subst hy hz
    simp [CaseMappingIter.new, drainFront, drainFrontAux, CaseMappingIter.next,
      CaseMappingIter.size, sizeHint, nonNulCount, h1]
  · by_cases hz : z = 0
    · subst hz
      simp [CaseMappingIter.new, hy, drainFront, drainFrontAux,
        CaseMappingIter.next, CaseMappingIter.size, sizeHint, nonNulCount, h1]
    · simp [CaseMappingIter.new, hy, hz, drainFront, drainFrontAux,
        CaseMappingIter.next, CaseMappingIter.size, sizeHint, nonNulCount, h1]

/-- C3 witness: the amended invariant at the `ﬄ → Ffl` mapping array. -/
theorem c3_amended_sentinel_invariant_witness :
    (drainFront (CaseMappingIter.new (0x46, 0x66, 0x6C))).length =
      nonNulCount (0x46, 0x66, 0x6C) ∧
    sizeHint (CaseMappingIter.new (0x46, 0x66, 0x6C)) =
      (nonNulCount (0x46, 0x66, 0x6C), some (nonNulCount (0x46, 0x66, 0x6C))) ∧
    ∀ x ∈ drainFront (CaseMappingIter.new (0x46, 0x66, 0x6C)), x ≠ 0 :=
  c3_amended_sentinel_invariant (0x46, 0x66, 0x6C) (by decide) (by decide)

/-- C4: the tr/az title-case mapping agrees with the default everywhere
except exactly at `'i'` (U+0069), where it returns `['İ' (U+0130), NUL,
NUL]`, whatever the table. -/
theorem c4_tr_az_divergence (t : Table) (c : Nat) :
    (c ≠ 0x69 → to_titlecase_tr_or_az t c = to_titlecase t c) ∧
    to_titlecase_tr_or_az t 0x69 = (0x130, 0, 0) := by
  constructor
  · intro h
    simp [to_titlecase_tr_or_az, h]
  · simp [to_titlecase_tr_or_az]

/-- C4 witness: instantiated at `'A'` (U+0041) and `'i'`. -/
theorem c4_tr_az_divergence_witness :
    to_titlecase_tr_or_az sampleTable 0x41 = to_titlecase sampleTable 0x41 ∧
    to_titlecase_tr_or_az sampleTable 0x69 = (0x130, 0, 0) :=
  ⟨(c4_tr_az_divergence sampleTable 0x41).1 (by decide),
   (c4_tr_az_divergence sampleTable 0x69).2⟩

/-- C5: under the sortedness invariant, `to_titlecase` returns the stored
mapping when `c` is a key of the table, and `[c, NUL, NUL]` when it is
not. -/
theorem c5_to_titlecase_spec (t : Table) (c : Nat) (m : Mapping)
    (hs : tableSorted t) :
    ((c, m) ∈ t → to_titlecase t c = m) ∧
    (c ∉ t.map Prod.fst → to_titlecase t c = (c, 0, 0)) := by
  constructor
  · intro hmem
    obtain ⟨i, hi, hget⟩ := List.mem_iff_getElem.mp hmem
    have hk : keyAt t i = c := by
      rw [keyAt_eq_getElem t i hi, hget]
    obtain ⟨j, hj⟩ := binarySearch_isSome_of_mem t c hs i hi hk
    obtain ⟨hjlen, hjk⟩ := binarySearch_some t c j hj
    have hij : i = j :=
      sorted_key_index_unique t hs i j hi hjlen (by rw [hk, hjk])
    subst hij
    unfold to_titlecase
    rw [hj]
    show (t.getD i (0, (0, 0, 0))).2 = m
    rw [valAt_eq_getElem t i hjlen, hget]
  · intro hnot
    cases hb : binarySearch t c with
    | some i =>
      obtain ⟨hi, hk⟩ := binarySearch_some t c i hb
      exfalso
      apply hnot
      rw [← hk, keyAt_eq_getElem t i hi]
      exact List.mem_map_of_mem Prod.fst (List.getElem_mem hi)
    | none =>
      unfold to_titlecase
      rw [hb]

/-- C5 witness: a hit (`Ǆ → ǅ`) and a miss (`'A'` is its own title case)
on `sampleTable`. -/
theorem c5_to_titlecase_spec_witness :
    to_titlecase sampleTable 0x1C4 = (0x1C5, 0, 0) ∧
    to_titlecase sampleTable 0x41 = (0x41, 0, 0) :=
  ⟨(c5_to_titlecase_spec sampleTable 0x1C4 (0x1C5, 0, 0) (by decide)).1
      (by decide),
   (c5_to_titlecase_spec sampleTable 0x41 (0, 0, 0) (by decide)).2
      (by decide)⟩

/-- C6: the string-level `to_titlecase` maps `c :: rest` to the title-case
expansion of `c` followed by `rest` unchanged, and every string policy
returns the empty result (mappings) or `false` (predicates) on the empty
string, with no failure. -/
theorem c6_string_policies (t : Table) (low : Nat → List Nat)
    (lowerP : Nat → Bool) (c : Nat) (rest : List Nat) :
    str_to_titlecase t (c :: rest) = title_expansion t c ++ rest ∧
    str_to_titlecase t [] = [] ∧
    str_to_titlecase_lower_rest t low [] = [] ∧
    str_to_titlecase_tr_or_az t [] = [] ∧
    str_to_titlecase_tr_or_az_lower_rest t low [] = some [] ∧
    starts_titlecase t [] = false ∧
    starts_titlecase_rest_lower t lowerP [] = false := by
  refine ⟨rfl, rfl, rfl, rfl, rfl, rfl, rfl⟩

/-- C7: consuming a constructed iterator state entirely from the back
yields exactly the reverse of consuming it from the front. -/
theorem c7_back_front_symmetry (a : Mapping) :
    drainBack (CaseMappingIter.new a) =
      (drainFront (CaseMappingIter.new a)).reverse :=
  drainBack_eq_reverse_drainFront _

/-- C8: during table construction, re-inserting a key whose existing
mapping differs in any slot is a fatal build error (modelled `none`),
while re-inserting the identical mapping is a silent no-op that leaves the
(sorted) map unchanged. -/
theorem c8_duplicate_insert_policy (data : BuildMap) (cp : Nat)
    (m old : SMapping)
    (hs : List.Pairwise (fun a b => a.1 < b.1) data) :
    (mapLookup data cp = some old → old ≠ m →
      insertChecked data cp m = none) ∧
    (mapLookup data cp = some m → insertChecked data cp m = some data) := by
  constructor
  · intro hold hne
    simp [insertChecked, hold, hne]
  · intro hold
    simp [insertChecked, hold, mapInsert_self data cp m hs hold]

/-- C8 witness: on a one-entry map, a conflicting duplicate is fatal and
an identical duplicate is a no-op. -/
theorem c8_duplicate_insert_policy_witness :
    insertChecked [(5, ("0041", "0", "0"))] 5 ("0042", "0", "0") = none ∧
    insertChecked [(5, ("0041", "0", "0"))] 5 ("0041", "0", "0") =
      some [(5, ("0041", "0", "0"))] :=
  ⟨(c8_duplicate_insert_policy [(5, ("0041", "0", "0"))] 5
      ("0042", "0", "0") ("0041", "0", "0") (by decide)).1
      (by decide) (by decide),
   (c8_duplicate_insert_policy [(5, ("0041", "0", "0"))] 5
      ("0041", "0", "0") ("0041", "0", "0") (by decide)).2 (by decide)⟩

/-- C9: a successful binary search always returns an in-bounds index, and
the `unwrap` inside `to_lowercase_tr_or_az` cannot fail whenever the
standard-library lowercase expansion is never empty (its documented
guarantee). -/
theorem c9_totality (t : Table) (c : Nat) (i : Nat) (low : Nat → List Nat) :
    (binarySearch t c = some i → i < t.length) ∧
    ((∀ x, low x ≠ []) → (to_lowercase_tr_or_az low c).isSome = true) := by
  constructor
  · intro h
    exact (binarySearch_some t c i h).1
  · intro h
    unfold to_lowercase_tr_or_az
    split
    · rfl
    · split
      · rfl
      · cases hl : low c with
        | nil => exact absurd hl (h c)
        | cons a as => simp

/-- C9 witness: a concrete hit on `sampleTable` lands in bounds, and a
never-empty lowercase function makes the tr/az lowercase total at `'A'`. -/
theorem c9_totality_witness :
    (0 : Nat) < sampleTable.length ∧
    (to_lowercase_tr_or_az (fun x => [x]) 0x41).isSome = true :=
  ⟨(c9_totality sampleTable 0x1C4 0 (fun x => [x])).1 (by decide),
   (c9_totality sampleTable 0x1C4 0 (fun x => [x])).2
      (fun x => by simp)⟩

/-- C10: for every char and every table, the iterator built by
`char::to_titlecase` and by `char::to_titlecase_tr_or_az` is never the
`Zero` state and yields between one and three codepoints. -/
theorem c10_iterator_never_empty (t : Table) (c : Nat) :
    CaseMappingIter.new (to_titlecase t c) ≠ CaseMappingIter.Zero ∧
    1 ≤ (drainFront (CaseMappingIter.new (to_titlecase t c))).length ∧
    (drainFront (CaseMappingIter.new (to_titlecase t c))).length ≤ 3 ∧
    CaseMappingIter.new (to_titlecase_tr_or_az t c) ≠ CaseMappingIter.Zero ∧
    1 ≤ (drainFront (CaseMappingIter.new (to_titlecase_tr_or_az t c))).length ∧
    (drainFront (CaseMappingIter.new (to_titlecase_tr_or_az t c))).length ≤ 3 := by
  obtain ⟨hz1, hl1, hu1⟩ := new_size_bounds (to_titlecase t c)
  obtain ⟨hz2, hl2, hu2⟩ := new_size_bounds (to_titlecase_tr_or_az t c)
  rw [drainFront_length, drainFront_length]
  exact ⟨hz1, hl1, hu1, hz2, hl2, hu2⟩
